import Mathlib

/-!
Verification development for the torch-uniAD perception core
(`src/modules/trackformer.py`, `src/modules/mapformer.py`,
`src/modules/occformer.py`).

Tensors over the embedding axis are modelled as `List Int` ("a vector"),
batched tensors as nested lists, and purely shape-level computations as
`List Nat` shapes threaded through `Except`-valued shape functions that
fail exactly where the torch code would raise.  External building blocks
that live in files absent from this snapshot (`modules/common.py`,
`modules/attentions.py`, `modules/base.py`) are modelled from their
spec-documented input/output contracts and marked as such.
-/

namespace TorchUniAD

/-- An embedding vector (one row of a `(…, embed_dim)` tensor). -/
abbrev Vec := List Int

/-! ## TrackFormer.forward, gather-and-pad of track queries
    (src/modules/trackformer.py lines 222-237) -/

/-- Boolean-mask indexing `track_queries[i][track_queries_mask[i]]`:
keep exactly the rows whose mask entry is `true`, in order. -/
def boolGather (xs : List Vec) (mask : List Bool) : List Vec :=
  (List.zip xs mask).filterMap (fun p => if p.2 then some p.1 else none)

/-- A zero embedding vector of width `e`. -/
def zeroVec (e : Nat) : Vec := List.replicate e 0

/-- `F.pad(tracks, pad=(0,0,0,pad_size), mode="constant", value=0)` with
`pad_size = maxT - tracks.shape[0]`: right-pad the row list with zero
vectors up to length `maxT`. -/
def padTracks (e maxT : Nat) (ts : List Vec) : List Vec :=
  ts ++ List.replicate (maxT - ts.length) (zeroVec e)

/-- `tracks_mask = zeros(maxT, dtype=bool); tracks_mask[:numValid] = True`. -/
def rebuiltMask (maxT numValid : Nat) : List Bool :=
  (List.range maxT).map (fun j => decide (j < numValid))

/-- `track_queries_mask.sum(dim=1).max()`: the batch-wide maximum number
of valid tracks. -/
def maxNumTracks (masks : List (List Bool)) : Nat :=
  (masks.map (fun m => m.count true)).foldr max 0

/-- The per-batch-element body of the gather-and-pad loop
(trackformer.py lines 227-234): gather valid rows, right-pad with zero
vectors to `maxT`, and rebuild the validity mask. -/
def gatherPad1 (e maxT : Nat) (tq : List Vec) (mask : List Bool) :
    List Vec × List Bool :=
  let tracks := boolGather tq mask
  (padTracks e maxT tracks, rebuiltMask maxT tracks.length)

lemma boolGather_nil : boolGather [] [] = [] := rfl

lemma boolGather_cons (x : Vec) (xs : List Vec) (b : Bool) (bs : List Bool) :
    boolGather (x :: xs) (b :: bs) =
      if b then x :: boolGather xs bs else boolGather xs bs := by
  cases b <;> simp [boolGather, List.zip]

lemma boolGather_length (xs : List Vec) (mask : List Bool)
    (h : xs.length = mask.length) :
    (boolGather xs mask).length = mask.count true := by
  induction mask generalizing xs with
  | nil =>
    cases xs with
    | nil => simp [boolGather]
    | cons x xt => simp at h
  | cons b bs ih =>
    cases xs with
    | nil => simp at h
    | cons x xt =>
      simp only [List.length_cons, Nat.succ.injEq] at h
      rw [boolGather_cons]
      cases b with
      | false => simpa [List.count_cons] using ih xt h
      | true => simpa [List.count_cons] using ih xt h

/-- The gathered rows are exactly the rows at `true` positions of the
mask, in their original order. -/
lemma boolGather_eq_filter_map (xs : List Vec) (mask : List Bool)
    (h : xs.length = mask.length) :
    boolGather xs mask =
      ((List.range mask.length).filter (fun j => mask.getD j false)).map
        (fun j => xs.getD j []) := by
  induction mask generalizing xs with
  | nil =>
    cases xs with
    | nil => simp [boolGather]
    | cons x xt => simp at h
  | cons b bs ih =>
    cases xs with
    | nil => simp at h
    | cons x xt =>
      simp only [List.length_cons, Nat.succ.injEq] at h
      rw [boolGather_cons]
      rw [List.length_cons, List.range_succ_eq_map]
      rw [List.filter_cons]
      have hmap : ∀ (l : List Nat),
          (l.map Nat.succ).filter (fun j => (b :: bs).getD j false)
            = (l.filter (fun j => bs.getD j false)).map Nat.succ := by
        intro l
        rw [List.filter_map]
        rfl
      have hgd : ∀ (l : List Nat),
          (l.map Nat.succ).map (fun j => (x :: xt).getD j [])
            = l.map (fun j => xt.getD j []) := by
        intro l
        rw [List.map_map]
        rfl
      cases b with
      | false =>
        have hc : ((false : Bool) :: bs).getD 0 false = false := rfl
        simp only [hc, Bool.false_eq_true, if_false]
        rw [hmap, hgd, ih xt h]
      | true =>
        have hc : ((true : Bool) :: bs).getD 0 false = true := rfl
        simp only [hc, if_true]
        rw [List.map_cons, hmap, hgd, ih xt h]
        simp

lemma count_le_maxNumTracks (masks : List (List Bool)) (m : List Bool)
    (hm : m ∈ masks) : m.count true ≤ maxNumTracks masks := by
  induction masks with
  | nil => cases hm
  | cons a as ih =>
    rcases List.mem_cons.mp hm with h | h
    · subst h
      exact Nat.le_max_left _ _
    · exact le_trans (ih h) (Nat.le_max_right _ _)

lemma padTracks_length (e maxT : Nat) (ts : List Vec)
    (h : ts.length ≤ maxT) : (padTracks e maxT ts).length = maxT := by
  simp [padTracks]
  omega

lemma rebuiltMask_length (maxT numValid : Nat) :
    (rebuiltMask maxT numValid).length = maxT := by
  simp [rebuiltMask]

lemma rebuiltMask_getD (maxT numValid j : Nat) (hj : j < maxT) :
    (rebuiltMask maxT numValid).getD j false = decide (j < numValid) := by
  unfold rebuiltMask
  rw [List.getD_eq_getElem?_getD, List.getElem?_map]
  simp [List.getElem?_range, hj]

lemma getD_mem_of_lt {α : Type} (l : List α) (i : Nat) (d : α)
    (h : i < l.length) : l.getD i d ∈ l := by
  rw [List.getD_eq_getElem l d h]
  exact List.getElem_mem h

lemma foldr_max_const (l : List Nat) (T : Nat) (h : ∀ x ∈ l, x = T)
    (hne : l ≠ []) : l.foldr max 0 = T := by
  induction l with
  | nil => cases hne rfl
  | cons a as ih =>
    have ha : a = T := h a (List.mem_cons_self a as)
    cases as with
    | nil => simp [ha]
    | cons b bs =>
      have : (b :: bs).foldr max 0 = T :=
        ih (fun x hx => h x (List.mem_cons_of_mem a hx)) (by simp)
      simp [ha, this]

/-- **C1.** In `TrackFormer.forward` with track queries supplied
(trackformer.py lines 222-237), for each batch element `i`: the rows
gathered from `track_queries[i]` are exactly those at positions where
`track_queries_mask[i]` is `true`, in their original order, right-padded
with zero vectors up to the batch-wide maximum valid-track count
`maxNumTracks masks`, and the rebuilt mask has that same length and is
`true` at exactly the first `num_valid_tracks` positions. -/
theorem trackformer_gather_pad_correct
    (e : Nat) (tqs : List (List Vec)) (masks : List (List Bool)) (i : Nat)
    (hi : i < masks.length)
    (hrow : (tqs.getD i []).length = (masks.getD i []).length) :
    (gatherPad1 e (maxNumTracks masks) (tqs.getD i []) (masks.getD i [])).1 =
      ((((List.range (masks.getD i []).length).filter
          (fun j => (masks.getD i []).getD j false)).map
        (fun j => (tqs.getD i []).getD j [])) ++
        List.replicate (maxNumTracks masks - (masks.getD i []).count true)
          (zeroVec e))
    ∧ (gatherPad1 e (maxNumTracks masks) (tqs.getD i [])
        (masks.getD i [])).1.length = maxNumTracks masks
    ∧ (gatherPad1 e (maxNumTracks masks) (tqs.getD i [])
        (masks.getD i [])).2.length = maxNumTracks masks
    ∧ (∀ j, j < maxNumTracks masks →
        (((gatherPad1 e (maxNumTracks masks) (tqs.getD i [])
          (masks.getD i [])).2.getD j false) = true
          ↔ j < (masks.getD i []).count true)) := by
  have hmem : masks.getD i [] ∈ masks := getD_mem_of_lt masks i [] hi
  have hle : (masks.getD i []).count true ≤ maxNumTracks masks :=
    count_le_maxNumTracks masks _ hmem
  have hglen : (boolGather (tqs.getD i []) (masks.getD i [])).length
      = (masks.getD i []).count true :=
    boolGather_length _ _ hrow
  refine ⟨?_, ?_, ?_, ?_⟩
  · show padTracks e (maxNumTracks masks)
      (boolGather (tqs.getD i []) (masks.getD i [])) = _
    rw [padTracks, hglen,
      boolGather_eq_filter_map (tqs.getD i []) (masks.getD i []) hrow]
  · show (padTracks e (maxNumTracks masks)
      (boolGather (tqs.getD i []) (masks.getD i []))).length = _
    exact padTracks_length e _ _ (hglen ▸ hle)
  · show (rebuiltMask (maxNumTracks masks)
      (boolGather (tqs.getD i []) (masks.getD i [])).length).length = _
    exact rebuiltMask_length _ _
  · intro j hj
    show (rebuiltMask (maxNumTracks masks)
      (boolGather (tqs.getD i []) (masks.getD i [])).length).getD j false
        = true ↔ _
    rw [rebuiltMask_getD _ _ _ hj, hglen]
    simp

/-- Witness for C1 at a concrete input: batch of two mask rows
`[true, false, true]` and `[true]`, tracks `[[1],[2],[3]]` and `[[4]]`;
batch max valid count is 2, element 0 gathers rows 0 and 2. -/
theorem trackformer_gather_pad_correct_witness :
    (0 < ([[true, false, true], [true]] : List (List Bool)).length)
    ∧ (([[[1], [2], [3]], [[4]]] : List (List Vec)).getD 0 []).length
        = (([[true, false, true], [true]] : List (List Bool)).getD 0
          []).length
    ∧ (gatherPad1 1 (maxNumTracks [[true, false, true], [true]])
        (([[[1], [2], [3]], [[4]]] : List (List Vec)).getD 0 [])
        (([[true, false, true], [true]] : List (List Bool)).getD 0 [])).1
      = ((((List.range ([true, false, true] : List Bool).length).filter
          (fun j => ([true, false, true] : List Bool).getD j false)).map
            (fun j => ([[1], [2], [3]] : List Vec).getD j [])) ++
          List.replicate (maxNumTracks [[true, false, true], [true]]
            - ([true, false, true] : List Bool).count true) (zeroVec 1)) :=
  ⟨by decide, by decide,
    (trackformer_gather_pad_correct 1 [[[1], [2], [3]], [[4]]]
      [[true, false, true], [true]] 0 (by decide) (by decide)).1⟩

/-- **C10.** If every entry of the supplied `track_queries_mask` is
`true` and the mask rows all have the per-element track count `T`
(trackformer.py lines 222-237), then the rebuilt mask for each batch
element is `List.replicate T true`: its length equals the original
per-element track-query count and every entry is `true`. -/
theorem trackformer_mask_recompute_identity
    (e T : Nat) (tqs : List (List Vec)) (masks : List (List Bool)) (i : Nat)
    (hi : i < masks.length)
    (hrow : (tqs.getD i []).length = (masks.getD i []).length)
    (hall : ∀ m ∈ masks, ∀ b ∈ m, b = true)
    (hrect : ∀ m ∈ masks, m.length = T) :
    (gatherPad1 e (maxNumTracks masks) (tqs.getD i [])
      (masks.getD i [])).2 = List.replicate T true
    ∧ (gatherPad1 e (maxNumTracks masks) (tqs.getD i [])
        (masks.getD i [])).2.length = (masks.getD i []).length := by
  have hmem : masks.getD i [] ∈ masks := getD_mem_of_lt masks i [] hi
  have hcount : ∀ m ∈ masks, m.count true = T := by
    intro m hm
    rw [List.count_eq_length.mpr (fun b hb => ((hall m hm) b hb).symm)]
    exact hrect m hm
  have hmax : maxNumTracks masks = T := by
    unfold maxNumTracks
    refine foldr_max_const _ T ?_ ?_
    · intro x hx
      rcases List.mem_map.mp hx with ⟨m, hm, hxm⟩
      rw [← hxm]
      exact hcount m hm
    · simp only [ne_eq, List.map_eq_nil_iff]
      intro hnil
      rw [hnil] at hi
      simp at hi
  have hglen : (boolGather (tqs.getD i []) (masks.getD i [])).length = T := by
    rw [boolGather_length _ _ hrow]
    exact hcount _ hmem
  constructor
  · show rebuiltMask (maxNumTracks masks)
      (boolGather (tqs.getD i []) (masks.getD i [])).length = _
    rw [hmax, hglen]
    unfold rebuiltMask
    rw [List.eq_replicate_iff]
    refine ⟨by simp, ?_⟩
    intro b hb
    rcases List.mem_map.mp hb with ⟨j, hj, hbj⟩
    rw [List.mem_range] at hj
    rw [← hbj]
    simp [hj]
  · show (rebuiltMask (maxNumTracks masks)
      (boolGather (tqs.getD i []) (masks.getD i [])).length).length = _
    rw [rebuiltMask_length, hmax, hrect _ hmem]

/-- Witness for C10 at a concrete input: one batch element with all-true
mask `[true, true]` over two one-dimensional tracks. -/
theorem trackformer_mask_recompute_identity_witness :
    (0 < ([[true, true]] : List (List Bool)).length)
    ∧ (gatherPad1 1 (maxNumTracks [[true, true]])
        (([[[5], [7]]] : List (List Vec)).getD 0 [])
        (([[true, true]] : List (List Bool)).getD 0 [])).2
      = List.replicate 2 true :=
  ⟨by decide,
    (trackformer_mask_recompute_identity 1 2 [[[5], [7]]] [[true, true]] 0
      (by decide) (by decide) (by decide) (by decide)).1⟩

/-! ## TrackFormer.forward, query-set assembly and reference points
    (src/modules/trackformer.py lines 206-249) -/

/-- Modelled from the spec: `DeformableAttention.generate_standard_ref_points`
lives in `src/modules/attentions.py`, which is absent from this snapshot.
Per the spec it generates one reference point per query as a uniform
(unnormalized) grid over the BEV spatial shape, length-matched
(`n_sample`) to the query set, for each batch element. -/
def generate_standard_ref_points (HW : Nat × Nat) (batchSize nSample : Nat) :
    List (List (Nat × Nat)) :=
  List.replicate batchSize
    ((List.range nSample).map (fun j => (j % HW.2, j / HW.2)))

/-- The per-batch-element working query row and padding-mask row built by
`TrackFormer.forward` when track queries are supplied (lines 226-239):
gathered-and-padded track queries concatenated with the detection
queries, and the rebuilt track mask concatenated with the all-true
detection mask. -/
def tfQueryRow (e maxT : Nat) (detQ : List Vec) (tq : List Vec)
    (mask : List Bool) : List Vec × List Bool :=
  let gp := gatherPad1 e maxT tq mask
  (gp.1 ++ detQ, gp.2 ++ List.replicate detQ.length true)

/-- The batched working query set, padding mask and reference points of
`TrackFormer.forward` (lines 206-249).  `detQ` is the positional-embedding
output `detection_pos_emb()` (one row, tiled over the batch); `tracks`
is the optional `(track_queries, track_queries_mask)` pair.  Reference
points are generated with `n_sample = queries.shape[1]`, read off the
first batch row. -/
def tfForwardPre (HW : Nat × Nat) (e batchSize : Nat) (detQ : List Vec)
    (tracks : Option (List (List Vec) × List (List Bool))) :
    List (List Vec) × List (List Bool) × List (List (Nat × Nat)) :=
  match tracks with
  | some (tqs, masks) =>
    let maxT := maxNumTracks masks
    let qs := (List.zip tqs masks).map
      (fun p => (tfQueryRow e maxT detQ p.1 p.2).1)
    let pm := (List.zip tqs masks).map
      (fun p => (tfQueryRow e maxT detQ p.1 p.2).2)
    (qs, pm, generate_standard_ref_points HW batchSize (qs.headD []).length)
  | none =>
    let qs := List.replicate batchSize detQ
    let pm := List.replicate batchSize (List.replicate detQ.length true)
    (qs, pm, generate_standard_ref_points HW batchSize (qs.headD []).length)

lemma tfQueryRow_queries_length (e maxT : Nat) (detQ : List Vec)
    (tq : List Vec) (mask : List Bool)
    (hrow : tq.length = mask.length) (hle : mask.count true ≤ maxT) :
    (tfQueryRow e maxT detQ tq mask).1.length = maxT + detQ.length := by
  show (padTracks e maxT (boolGather tq mask) ++ detQ).length = _
  rw [List.length_append,
    padTracks_length e maxT _ (by rw [boolGather_length _ _ hrow]; exact hle)]

lemma tfQueryRow_mask_length (e maxT : Nat) (detQ : List Vec)
    (tq : List Vec) (mask : List Bool) :
    (tfQueryRow e maxT detQ tq mask).2.length = maxT + detQ.length := by
  show (rebuiltMask maxT _ ++ List.replicate detQ.length true).length = _
  rw [List.length_append, rebuiltMask_length, List.length_replicate]

lemma generate_standard_ref_points_row_length (HW : Nat × Nat)
    (batchSize nSample i : Nat) (hi : i < batchSize) :
    ((generate_standard_ref_points HW batchSize nSample).getD i []).length
      = nSample := by
  unfold generate_standard_ref_points
  rw [List.getD_eq_getElem _ _ (by simpa using hi), List.getElem_replicate]
  simp

/-- **C2.** (spec-modelled reference-point generator, see
`generate_standard_ref_points`.)  For every valid call to
`TrackFormer.forward`: with track queries supplied, each batch element's
working query row and padding-mask row have length
`maxNumTracks masks + max_detections` (`detQ.length` being
`max_detections`); with `track_queries = None`, they have length exactly
`max_detections`; and in both cases each batch element's generated
reference-point row has length equal to the query-row length. -/
theorem trackformer_query_set_length
    (HW : Nat × Nat) (e batchSize : Nat) (detQ : List Vec)
    (tqs : List (List Vec)) (masks : List (List Bool)) (i : Nat)
    (hb : 1 ≤ batchSize)
    (htb : tqs.length = batchSize) (hmb : masks.length = batchSize)
    (hi : i < batchSize)
    (hrow : ∀ k, k < batchSize →
      (tqs.getD k []).length = (masks.getD k []).length) :
    (((tfForwardPre HW e batchSize detQ (some (tqs, masks))).1.getD i
        []).length = maxNumTracks masks + detQ.length
      ∧ ((tfForwardPre HW e batchSize detQ
          (some (tqs, masks))).2.1.getD i []).length
        = maxNumTracks masks + detQ.length
      ∧ ((tfForwardPre HW e batchSize detQ
          (some (tqs, masks))).2.2.getD i []).length
        = ((tfForwardPre HW e batchSize detQ
            (some (tqs, masks))).1.getD i []).length)
    ∧ (((tfForwardPre HW e batchSize detQ none).1.getD i []).length
        = detQ.length
      ∧ ((tfForwardPre HW e batchSize detQ none).2.1.getD i []).length
        = detQ.length
      ∧ ((tfForwardPre HW e batchSize detQ none).2.2.getD i []).length
        = ((tfForwardPre HW e batchSize detQ none).1.getD i []).length) := by
  have hzlen : (List.zip tqs masks).length = batchSize := by
    rw [List.length_zip, htb, hmb, Nat.min_self]
  have hzget : ∀ k, k < batchSize →
      (List.zip tqs masks).getD k ([], [])
        = (tqs.getD k [], masks.getD k []) := by
    intro k hk
    rw [List.getD_eq_getElem _ _ (by rw [hzlen]; exact hk),
      List.getElem_zip,
      List.getD_eq_getElem _ _ (by rw [htb]; exact hk),
      List.getD_eq_getElem _ _ (by rw [hmb]; exact hk)]
  have hqrow : ∀ k, k < batchSize →
      ((tfForwardPre HW e batchSize detQ (some (tqs, masks))).1.getD k
        []).length = maxNumTracks masks + detQ.length := by
    intro k hk
    show (((List.zip tqs masks).map
      (fun p => (tfQueryRow e (maxNumTracks masks) detQ p.1 p.2).1)).getD k
        []).length = _
    rw [List.getD_eq_getElem _ _
      (by rw [List.length_map, hzlen]; exact hk)]
    rw [List.getElem_map]
    have := hzget k hk
    rw [List.getD_eq_getElem _ _ (by rw [hzlen]; exact hk)] at this
    rw [this]
    refine tfQueryRow_queries_length e _ detQ _ _ (hrow k hk) ?_
    exact count_le_maxNumTracks masks _
      (getD_mem_of_lt masks k [] (by rw [hmb]; exact hk))
  refine ⟨⟨hqrow i hi, ?_, ?_⟩, ?_, ?_, ?_⟩
  · show (((List.zip tqs masks).map
      (fun p => (tfQueryRow e (maxNumTracks masks) detQ p.1 p.2).2)).getD i
        []).length = _
    rw [List.getD_eq_getElem _ _
      (by rw [List.length_map, hzlen]; exact hi)]
    rw [List.getElem_map]
    exact tfQueryRow_mask_length e _ detQ _ _
  · show ((generate_standard_ref_points HW batchSize
      (((List.zip tqs masks).map
        (fun p => (tfQueryRow e (maxNumTracks masks) detQ p.1 p.2).1)).headD
          []).length).getD i []).length = _
    rw [generate_standard_ref_points_row_length HW batchSize _ i hi,
      hqrow i hi]
    have h0 : (((List.zip tqs masks).map
        (fun p => (tfQueryRow e (maxNumTracks masks) detQ p.1 p.2).1)).headD
          []).length = maxNumTracks masks + detQ.length := by
      have hhd : ((List.zip tqs masks).map
          (fun p => (tfQueryRow e (maxNumTracks masks) detQ p.1 p.2).1)).headD
            [] = ((List.zip tqs masks).map
          (fun p => (tfQueryRow e (maxNumTracks masks) detQ p.1 p.2).1)).getD
            0 [] := by
        cases ((List.zip tqs masks).map
          (fun p => (tfQueryRow e (maxNumTracks masks) detQ p.1 p.2).1)) <;>
          rfl
      rw [hhd]
      exact hqrow 0 hb
    exact h0
  · show ((List.replicate batchSize detQ).getD i []).length = _
    rw [List.getD_eq_getElem _ _ (by simpa using hi),
      List.getElem_replicate]
  · show ((List.replicate batchSize
      (List.replicate detQ.length true)).getD i []).length = _
    rw [List.getD_eq_getElem _ _ (by simpa using hi),
      List.getElem_replicate, List.length_replicate]
  · show ((generate_standard_ref_points HW batchSize
      ((List.replicate batchSize detQ).headD []).length).getD i []).length
        = _
    rw [generate_standard_ref_points_row_length HW batchSize _ i hi]
    show ((List.replicate batchSize detQ).headD []).length
      = ((List.replicate batchSize detQ).getD i []).length
    rw [List.getD_eq_getElem _ _ (by simpa using hi),
      List.getElem_replicate]
    have hhd : (List.replicate batchSize detQ).headD []
        = (List.replicate batchSize detQ).getD 0 [] := by
      cases hb' : (List.replicate batchSize detQ) <;> rfl
    rw [hhd, List.getD_eq_getElem _ _ (by simpa using hb),
      List.getElem_replicate]

/-- Witness for C2 at a concrete input: batch 1, one track row
`[[1],[2]]` with mask `[true, false]`, two detection queries. -/
theorem trackformer_query_set_length_witness :
    (1 ≤ 1)
    ∧ (((tfForwardPre (4, 4) 1 1 [[9], [8]]
        (some ([[[1], [2]]], [[true, false]]))).1.getD 0 []).length
      = maxNumTracks [[true, false]] + ([[9], [8]] : List Vec).length) :=
  ⟨by decide,
    ((trackformer_query_set_length (4, 4) 1 1 [[9], [8]] [[[1], [2]]]
      [[true, false]] 0 (by decide) (by decide) (by decide) (by decide)
      (by decide)).1).1⟩

/-! ## TrackFormer.forward, decoder loop and detection head
    (src/modules/trackformer.py lines 251-268) -/

/-- Result of the decoder loop: in inference mode a single detection
tensor (`return self.detection_module(output)` at the last layer); in
training mode the final raw output together with the stacked per-layer
detections (`return output, layers_detections`). -/
inductive TFOut (Q D : Type) where
  | infer (d : D)
  | train (q : Q) (dets : List D)
deriving DecidableEq

/-- Apply decoder layers `idx, idx+1, …, idx+n-1` in sequence. -/
def applyLayersFrom {Q : Type} (layer : Nat → Q → Q) : Nat → Nat → Q → Q
  | _, 0, q => q
  | idx, n + 1, q => applyLayersFrom layer (idx + 1) n (layer idx q)

/-- The decoder loop of `TrackFormer.forward` (lines 251-268), with an
explicit trace of the layer indices at which `self.detection_module` is
applied.  `none` models the runtime failure when the loop body never
produces any detection to stack (`torch.stack` of an empty list /
unbound `output`), which happens only for `numLayers = 0`. -/
def tfDecoderLoop {Q D : Type} (numLayers : Nat) (layer : Nat → Q → Q)
    (head : Q → D) (training : Bool) (idx : Nat) (q : Q) (dets : List D)
    (trace : List Nat) : Option (TFOut Q D) × List Nat :=
  if h : idx < numLayers then
    let out := layer idx q
    if training then
      tfDecoderLoop numLayers layer head training (idx + 1) out
        (dets ++ [head out]) (trace ++ [idx])
    else
      if idx = numLayers - 1 then
        (some (TFOut.infer (head out)), trace ++ [idx])
      else
        tfDecoderLoop numLayers layer head training (idx + 1) out dets trace
  else
    (if dets.isEmpty then none else some (TFOut.train q dets), trace)
termination_by numLayers - idx
decreasing_by all_goals omega

lemma tfDecoderLoop_train {Q D : Type} (numLayers : Nat)
    (layer : Nat → Q → Q) (head : Q → D) :
    ∀ (n idx : Nat) (q : Q) (dets : List D) (trace : List Nat),
    idx + n = numLayers →
    tfDecoderLoop numLayers layer head true idx q dets trace =
      (if (dets ++ (List.range n).map
            (fun k => head (applyLayersFrom layer idx (k + 1) q))).isEmpty
        then none
        else some (TFOut.train (applyLayersFrom layer idx n q)
          (dets ++ (List.range n).map
            (fun k => head (applyLayersFrom layer idx (k + 1) q)))),
        trace ++ (List.range n).map (fun k => idx + k)) := by
  intro n
  induction n with
  | zero =>
    intro idx q dets trace hidx
    rw [tfDecoderLoop]
    have hnl : ¬ idx < numLayers := by omega
    rw [dif_neg hnl]
    rw [List.range_zero, List.map_nil, List.map_nil, List.append_nil,
      List.append_nil]
    rfl
  | succ m ih =>
    intro idx q dets trace hidx
    rw [tfDecoderLoop]
    have hlt : idx < numLayers := by omega
    simp only [hlt, dif_pos, if_pos rfl]
    rw [ih (idx + 1) (layer idx q) (dets ++ [head (layer idx q)])
      (trace ++ [idx]) (by omega)]
    have hdets : (dets ++ [head (layer idx q)]) ++ (List.range m).map
        (fun k => head (applyLayersFrom layer (idx + 1) (k + 1)
          (layer idx q)))
        = dets ++ (List.range (m + 1)).map
          (fun k => head (applyLayersFrom layer idx (k + 1) q)) := by
      rw [List.append_assoc, List.range_succ_eq_map]
      simp only [List.map_cons, List.map_map]
      rfl
    have hrsm : (List.range (m + 1)).map (fun k => idx + k)
        = idx :: (List.range m).map (fun k => (idx + 1) + k) := by
      rw [List.range_succ_eq_map, List.map_cons, List.map_map]
      refine congrArg₂ List.cons (by omega) ?_
      refine List.map_congr_left ?_
      intro k _
      simp only [Function.comp_apply]
      omega
    have htr : (trace ++ [idx]) ++ (List.range m).map
        (fun k => (idx + 1) + k)
        = trace ++ (List.range (m + 1)).map (fun k => idx + k) := by
      rw [List.append_assoc, hrsm]
      rfl
    rw [hdets, htr]
    have happ : applyLayersFrom layer (idx + 1) m (layer idx q)
        = applyLayersFrom layer idx (m + 1) q := rfl
    rw [happ]
    simp

lemma tfDecoderLoop_infer {Q D : Type} (numLayers : Nat)
    (layer : Nat → Q → Q) (head : Q → D) :
    ∀ (n idx : Nat) (q : Q) (dets : List D) (trace : List Nat),
    1 ≤ n → idx + n = numLayers →
    tfDecoderLoop numLayers layer head false idx q dets trace =
      (some (TFOut.infer (head (applyLayersFrom layer idx n q))),
        trace ++ [numLayers - 1]) := by
  intro n
  induction n with
  | zero =>
    intro idx q dets trace h1 hidx
    exact absurd h1 (by omega)
  | succ m ih =>
    intro idx q dets trace h1 hidx
    rw [tfDecoderLoop]
    have hlt : idx < numLayers := by omega
    simp only [hlt, dif_pos, Bool.false_eq_true, if_false]
    cases m with
    | zero =>
      have : idx = numLayers - 1 := by omega
      simp only [this, if_pos rfl]
      rfl
    | succ m' =>
      have hne : ¬ idx = numLayers - 1 := by omega
      simp only [hne, if_false]
      rw [ih (idx + 1) (layer idx q) dets trace (by omega) (by omega)]
      rfl

/-- **C3.** In training mode, the decoder loop of `TrackFormer.forward`
(lines 251-268) applies the detection head to every one of the
`num_layers` layer outputs, returning the final layer's raw embedding
together with exactly `num_layers` stacked per-layer detections, and its
head-application trace is `[0, …, num_layers - 1]`.  In inference mode
it returns only the detection head applied to the final layer's output,
and its head-application trace is exactly `[num_layers - 1]`: no
detection output is materialized for any earlier layer. -/
theorem trackformer_detection_modes {Q D : Type} (numLayers : Nat)
    (layer : Nat → Q → Q) (head : Q → D) (q : Q)
    (hL : 1 ≤ numLayers) :
    (tfDecoderLoop numLayers layer head true 0 q [] [] =
      (some (TFOut.train (applyLayersFrom layer 0 numLayers q)
        ((List.range numLayers).map
          (fun k => head (applyLayersFrom layer 0 (k + 1) q)))),
        List.range numLayers)
      ∧ ((List.range numLayers).map
          (fun k => head (applyLayersFrom layer 0 (k + 1) q))).length
        = numLayers)
    ∧ tfDecoderLoop numLayers layer head false 0 q [] [] =
      (some (TFOut.infer (head (applyLayersFrom layer 0 numLayers q))),
        [numLayers - 1]) := by
  refine ⟨⟨?_, by simp⟩, ?_⟩
  · rw [tfDecoderLoop_train numLayers layer head numLayers 0 q [] []
      (by omega)]
    have hne : (([] : List D) ++ (List.range numLayers).map
        (fun k => head (applyLayersFrom layer 0 (k + 1) q))).isEmpty
        = false := by
      simp only [List.nil_append, List.isEmpty_eq_false_iff_exists_mem]
      exact ⟨head (applyLayersFrom layer 0 1 q),
        List.mem_map.mpr ⟨0, List.mem_range.mpr (by omega), rfl⟩⟩
    rw [hne]
    simp
  · rw [tfDecoderLoop_infer numLayers layer head numLayers 0 q [] [] hL
      (by omega)]
    simp

/-- Witness for C3 at a concrete input: two layers over natural-number
states, layer `i` adds `i + 1`, head doubles. -/
theorem trackformer_detection_modes_witness :
    (1 ≤ 2)
    ∧ tfDecoderLoop 2 (fun i q => q + i + 1) (fun q => 2 * q) false 0 5 []
        [] = (some (TFOut.infer (2 * applyLayersFrom
          (fun i q => q + i + 1) 0 2 5)), [1]) :=
  ⟨by decide,
    (trackformer_detection_modes 2 (fun i q => q + i + 1)
      (fun q => 2 * q) 5 (by decide)).2⟩

/-! ## TrackFormerDecoderLayer.forward, detection-query re-injection
    (src/modules/trackformer.py lines 53-113) -/

/-- Element-wise tensor addition of two rows of embedding vectors. -/
def vadd (a b : Vec) : Vec := List.zipWith (· + ·) a b

/-- The re-injection step of `TrackFormerDecoderLayer.forward`
(lines 91-95 and 101-105): build a fresh tensor whose leading
`numTracks` rows are the input's rows unchanged and whose trailing rows
are the input's trailing rows plus the original detection queries. -/
def reinjectDet (numTracks : Nat) (q og : List Vec) : List Vec :=
  if 0 < numTracks then
    q.take numTracks ++ List.zipWith vadd (q.drop numTracks) og
  else
    List.zipWith vadd q og

/-- The black-box sub-modules of a `TrackFormerDecoderLayer`
(self-attention, the three AddNorm blocks, deformable attention and the
feed-forward MLP), abstracted as functions; they live in
`modules/attentions.py` / `modules/common.py`, absent from this
snapshot. -/
structure TFLayerOps where
  selfAttn : List Vec → List Vec → List Vec → List Bool → List Vec
  addnorm1 : List Vec → List Vec → List Vec
  deformAttn : List Vec → List (Nat × Nat) → List Vec → List Bool →
    List Vec
  addnorm2 : List Vec → List Vec → List Vec
  mlp : List Vec → List Vec
  addnorm3 : List Vec → List Vec → List Vec

/-- The intermediate tensors of one `TrackFormerDecoderLayer.forward`
call: the augmented query/key input of self-attention (`q_and_k`), the
first AddNorm output (`out2`), the augmented input of deformable
cross-attention (`aug_out2`) and the layer output. -/
structure TFLayerTrace where
  qAndK : List Vec
  out2 : List Vec
  augOut2 : List Vec
  output : List Vec

/-- `TrackFormerDecoderLayer.forward` (lines 79-113), with its
intermediate tensors recorded.  `numTracks` is
`num_queries - num_detections` as computed on line 86. -/
def tfLayerForward (ops : TFLayerOps) (numTracks : Nat)
    (queries bev : List Vec) (refPts : List (Nat × Nat)) (ogDet : List Vec)
    (padMask : List Bool) : TFLayerTrace :=
  let qAndK := reinjectDet numTracks queries ogDet
  let out1 := ops.selfAttn qAndK qAndK queries padMask
  let out2 := ops.addnorm1 queries out1
  let augOut2 := reinjectDet numTracks out2 ogDet
  let out3 := ops.deformAttn augOut2 refPts bev padMask
  let out4 := ops.addnorm2 out2 out3
  let out5 := ops.mlp out4
  let out6 := ops.addnorm3 out4 out5
  ⟨qAndK, out2, augOut2, out6⟩

lemma reinjectDet_length (n : Nat) (q og : List Vec)
    (h : q.length = n + og.length) :
    (reinjectDet n q og).length = q.length := by
  unfold reinjectDet
  by_cases hn : 0 < n
  · rw [if_pos hn, List.length_append, List.length_take,
      List.length_zipWith, List.length_drop]
    omega
  · rw [if_neg hn, List.length_zipWith]
    omega

lemma reinjectDet_getD_lt (n : Nat) (q og : List Vec) (i : Nat)
    (h : q.length = n + og.length) (hi : i < n) :
    (reinjectDet n q og).getD i [] = q.getD i [] := by
  have hn : 0 < n := by omega
  have hiq : i < q.length := by omega
  have hit : i < (q.take n).length := by
    rw [List.length_take]; omega
  unfold reinjectDet
  rw [if_pos hn,
    List.getD_eq_getElem _ _ (by rw [List.length_append]; omega),
    List.getD_eq_getElem _ _ hiq,
    List.getElem_append_left hit, List.getElem_take]

lemma reinjectDet_getD_ge (n : Nat) (q og : List Vec) (j : Nat)
    (h : q.length = n + og.length) (hj : j < og.length) :
    (reinjectDet n q og).getD (n + j) [] =
      vadd (q.getD (n + j) []) (og.getD j []) := by
  have hzw : (List.zipWith vadd (q.drop n) og).length = og.length := by
    rw [List.length_zipWith, List.length_drop]
    omega
  unfold reinjectDet
  by_cases hn : 0 < n
  · have hlt : n + j < (q.take n).length
        + (List.zipWith vadd (q.drop n) og).length := by
      rw [List.length_take, hzw]
      omega
    have hge : (q.take n).length ≤ n + j := by
      rw [List.length_take]
      omega
    rw [if_pos hn,
      List.getD_eq_getElem _ _ (by rw [List.length_append]; exact hlt),
      List.getD_eq_getElem _ _ (show n + j < q.length by omega),
      List.getD_eq_getElem _ _ hj,
      List.getElem_append_right hge]
    have htk : (q.take n).length = n := by
      rw [List.length_take]; omega
    have hidx : n + j - (q.take n).length = j := by rw [htk]; omega
    simp only [hidx]
    rw [List.getElem_zipWith]
    congr 1
    rw [List.getElem_drop]
  · have hn0 : n = 0 := by omega
    subst hn0
    rw [if_neg (by omega),
      List.getD_eq_getElem _ _ (by rw [List.length_zipWith]; omega),
      List.getD_eq_getElem _ _ (show 0 + j < q.length by omega),
      List.getD_eq_getElem _ _ hj,
      List.getElem_zipWith]
    simp

/-- **C4.** In every `TrackFormerDecoderLayer.forward` call the original
detection-query block is additively re-injected exactly twice: the
query/key input of self-attention is `reinjectDet … queries og` and the
input of deformable cross-attention is `reinjectDet … out2 og`, where
both re-injections are freshly built slice-and-concatenate tensors whose
leading `numTracks` rows equal the respective base tensor's rows
unchanged and whose trailing `num_detections` rows are the base rows
plus the original detection queries. -/
theorem tracklayer_reinjection (ops : TFLayerOps) (numTracks : Nat)
    (queries bev : List Vec) (refPts : List (Nat × Nat)) (ogDet : List Vec)
    (padMask : List Bool)
    (hlen : queries.length = numTracks + ogDet.length)
    (han : ∀ a b, (ops.addnorm1 a b).length = a.length) :
    (tfLayerForward ops numTracks queries bev refPts ogDet padMask).qAndK
      = reinjectDet numTracks queries ogDet
    ∧ (tfLayerForward ops numTracks queries bev refPts ogDet
        padMask).augOut2
      = reinjectDet numTracks
        (tfLayerForward ops numTracks queries bev refPts ogDet
          padMask).out2 ogDet
    ∧ (tfLayerForward ops numTracks queries bev refPts ogDet
        padMask).qAndK.length = queries.length
    ∧ (∀ i, i < numTracks →
        (tfLayerForward ops numTracks queries bev refPts ogDet
          padMask).qAndK.getD i [] = queries.getD i [])
    ∧ (∀ j, j < ogDet.length →
        (tfLayerForward ops numTracks queries bev refPts ogDet
          padMask).qAndK.getD (numTracks + j) []
        = vadd (queries.getD (numTracks + j) []) (ogDet.getD j []))
    ∧ (tfLayerForward ops numTracks queries bev refPts ogDet
        padMask).augOut2.length
      = (tfLayerForward ops numTracks queries bev refPts ogDet
          padMask).out2.length
    ∧ (∀ i, i < numTracks →
        (tfLayerForward ops numTracks queries bev refPts ogDet
          padMask).augOut2.getD i []
        = (tfLayerForward ops numTracks queries bev refPts ogDet
            padMask).out2.getD i [])
    ∧ (∀ j, j < ogDet.length →
        (tfLayerForward ops numTracks queries bev refPts ogDet
          padMask).augOut2.getD (numTracks + j) []
        = vadd ((tfLayerForward ops numTracks queries bev refPts ogDet
            padMask).out2.getD (numTracks + j) []) (ogDet.getD j [])) := by
  have hout2 : (tfLayerForward ops numTracks queries bev refPts ogDet
      padMask).out2.length = numTracks + ogDet.length := by
    show (ops.addnorm1 queries _).length = _
    rw [han]
    exact hlen
  refine ⟨rfl, rfl, ?_, ?_, ?_, ?_, ?_, ?_⟩
  · exact reinjectDet_length numTracks queries ogDet hlen
  · intro i hi
    exact reinjectDet_getD_lt numTracks queries ogDet i hlen hi
  · intro j hj
    exact reinjectDet_getD_ge numTracks queries ogDet j hlen hj
  · exact reinjectDet_length numTracks _ ogDet hout2
  · intro i hi
    exact reinjectDet_getD_lt numTracks _ ogDet i hout2 hi
  · intro j hj
    exact reinjectDet_getD_ge numTracks _ ogDet j hout2 hj

/-- Witness for C4 at a concrete input: one track query and one
detection query of width 1, with concrete black-box sub-modules. -/
theorem tracklayer_reinjection_witness :
    (([[1], [2]] : List Vec).length = 1 + ([[10]] : List Vec).length)
    ∧ (∀ a b : List Vec,
        ((TFLayerOps.mk (fun q _ _ _ => q) (fun a _ => a)
          (fun q _ _ _ => q) (fun a _ => a) id (fun a _ => a)).addnorm1
          a b).length = a.length)
    ∧ (tfLayerForward
        (TFLayerOps.mk (fun q _ _ _ => q) (fun a _ => a)
          (fun q _ _ _ => q) (fun a _ => a) id (fun a _ => a))
        1 [[1], [2]] [[0]] [(0, 0)] [[10]] [true, true]).qAndK
      = reinjectDet 1 [[1], [2]] [[10]] :=
  ⟨by decide, fun a _ => rfl,
    (tracklayer_reinjection
      (TFLayerOps.mk (fun q _ _ _ => q) (fun a _ => a)
        (fun q _ _ _ => q) (fun a _ => a) id (fun a _ => a))
      1 [[1], [2]] [[0]] [(0, 0)] [[10]] [true, true]
      (by decide) (fun a _ => rfl)).1⟩

/-! ## MapFormer.__init__ and MapFormer.forward
    (src/modules/mapformer.py lines 34-99, src/modules/trackformer.py
    lines 133-160 and 260-268) -/

/-- Python runtime failures relevant to this codebase. -/
inductive PyError where
  | assertError
  | attributeError (name : String)
  | valueError
  | typeError
  | runtimeError
deriving DecidableEq

/-- The instance-attribute names assigned by `TrackFormer.__init__`
(trackformer.py lines 135-160).  Note the class count is stored under
`num_classes`; no attribute called `num_obj_classes` is ever assigned,
neither here nor in `MapFormer.__init__`. -/
def trackformerInitAttrs : List String :=
  ["num_heads", "embed_dim", "num_layers", "num_classes",
   "num_ref_points", "dim_feedforward", "dropout", "offset_scale",
   "max_detections", "learnable_pe", "bev_feature_shape",
   "track_threshold", "det_3d", "detection_pos_emb", "decoder_modules",
   "detection_module"]

/-- Python attribute read `self.<name>`: succeeds iff the attribute has
been assigned, otherwise raises `AttributeError`. -/
def pyGetAttr (attrs : List String) (name : String) :
    Except PyError Unit :=
  if name ∈ attrs then Except.ok () else
    Except.error (PyError.attributeError name)

/-- `MapFormer.__init__` (mapformer.py lines 34-53) as a sequence of
attribute assignments and reads.  The constructor arguments other than
`num_seg_coeffs` only flow into stored values, never into the attribute
environment or control flow, so they are elided.  Reads `self.embed_dim`
for `ProtoSegModule`, then `self.embed_dim`, `self.num_obj_classes`,
`self.det_3d` and `self.num_seg_coeffs` for the widened
`DetectionHead`. -/
def mapformerInit (num_seg_coeffs : Int) :
    Except PyError (List String) := do
  let attrs := trackformerInitAttrs
  if 0 < num_seg_coeffs then pure () else throw PyError.assertError
  let attrs := attrs ++ ["num_seg_coeffs", "seg_c_h"]
  let _ ← pyGetAttr attrs "embed_dim"
  let attrs := attrs ++ ["proto_seg_module"]
  let _ ← pyGetAttr attrs "embed_dim"
  let _ ← pyGetAttr attrs "num_obj_classes"
  let _ ← pyGetAttr attrs "det_3d"
  let _ ← pyGetAttr attrs "num_seg_coeffs"
  let attrs := attrs ++ ["detection_module"]
  pure attrs

/-- **C6.** Constructing a `MapFormer` raises for every combination of
constructor arguments: if the `num_seg_coeffs > 0` assert passes, the
read of the never-assigned attribute `self.num_obj_classes` in
`MapFormer.__init__` raises `AttributeError` (TrackFormer stores the
class count under `num_classes`), so no `MapFormer` instance is ever
returned. -/
theorem mapformer_init_always_raises (num_seg_coeffs : Int) :
    (∀ attrs, mapformerInit num_seg_coeffs ≠ Except.ok attrs)
    ∧ (0 < num_seg_coeffs →
        mapformerInit num_seg_coeffs
          = Except.error (PyError.attributeError "num_obj_classes"))
    ∧ "num_obj_classes" ∉ trackformerInitAttrs
    ∧ "num_classes" ∈ trackformerInitAttrs := by
  by_cases h : 0 < num_seg_coeffs
  · refine ⟨?_, fun _ => ?_, by decide, by decide⟩
    · intro attrs hok
      rw [show mapformerInit num_seg_coeffs
          = Except.error (PyError.attributeError "num_obj_classes") from
          by unfold mapformerInit; rw [if_pos h]; rfl] at hok
      cases hok
    · unfold mapformerInit
      rw [if_pos h]
      rfl
  · have herr : mapformerInit num_seg_coeffs
        = Except.error PyError.assertError := by
      unfold mapformerInit
      rw [if_neg h]
      rfl
    refine ⟨?_, ?_, by decide, by decide⟩
    · intro attrs hok
      rw [herr] at hok
      cases hok
    · intro hpos
      exact absurd hpos h

/-- Witness for C6 at the default `num_seg_coeffs = 32`. -/
theorem mapformer_init_always_raises_witness :
    ((0 : Int) < 32)
    ∧ mapformerInit 32
      = Except.error (PyError.attributeError "num_obj_classes") :=
  ⟨by decide, (mapformer_init_always_raises 32).2.1 (by decide)⟩

/-- A Python runtime object: a tensor carrying its shape, or a tuple. -/
inductive PyObj where
  | tensor (shape : List Nat)
  | tuple (items : List PyObj)

/-- The object returned by `TrackFormer.forward` (trackformer.py lines
260-268): in training mode the 2-tuple `(output, layers_detections)`;
in inference mode the single detections tensor. -/
def tfForwardReturn (training : Bool) (outputShape detShape : List Nat)
    (numLayers : Nat) : PyObj :=
  if training then
    PyObj.tuple [PyObj.tensor outputShape,
      PyObj.tensor (numLayers :: detShape)]
  else
    PyObj.tensor detShape

/-- Python iteration over an object: a tuple yields its items; a tensor
yields its rows along dimension 0 (a 0-dim tensor is not iterable). -/
def pyIterate : PyObj → Except PyError (List PyObj)
  | PyObj.tuple items => Except.ok items
  | PyObj.tensor [] => Except.error PyError.typeError
  | PyObj.tensor (n :: rest) =>
      Except.ok (List.replicate n (PyObj.tensor rest))

/-- Python tuple unpacking `a, b, c, d = x`: raises `ValueError` unless
iterating `x` yields exactly four values. -/
def pyUnpack4 (x : PyObj) :
    Except PyError (PyObj × PyObj × PyObj × PyObj) := do
  let items ← pyIterate x
  match items with
  | [a, b, c, d] => Except.ok (a, b, c, d)
  | _ => Except.error PyError.valueError

/-- The first statement of `MapFormer.forward` (mapformer.py lines
89-91): unpack four names from the parent `TrackFormer.forward` return
value.  Everything after this statement (coefficient split, prototype
masks, einsum) is unreachable when the unpacking raises. -/
def mapformerForwardUnpack (training : Bool)
    (outputShape detShape : List Nat) (numLayers : Nat) :
    Except PyError (PyObj × PyObj × PyObj × PyObj) :=
  pyUnpack4 (tfForwardReturn training outputShape detShape numLayers)

/-- **C5 (code bug).** `MapFormer.forward` can never return the
documented five-tuple: no `MapFormer` instance can be constructed at all
(`mapformerInit` always raises, see C6), and even with construction
fixed, in training mode `TrackFormer.forward` returns a 2-tuple while
`MapFormer.forward` unpacks four names from it, raising `ValueError`
before any mask computation.  Evaluated here at a concrete training
call (batch 2, 903 queries, embed width 256, detection width 42, 6
layers). -/
theorem mapformer_forward_never_returns :
    mapformerForwardUnpack true [2, 903, 256] [2, 903, 42] 6
      = Except.error PyError.valueError
    ∧ mapformerInit 32
      = Except.error (PyError.attributeError "num_obj_classes") :=
  ⟨rfl, rfl⟩

/-! ## OccFormer.forward, mode max-pooling
    (src/modules/occformer.py lines 165 and 242-243) -/

/-- Element-wise maximum of two embedding rows. -/
def vmax (a b : Vec) : Vec := List.zipWith max a b

/-- Element-wise maximum over a window of rows (the reduction performed
by one kernel application of `nn.MaxPool2d`). -/
def windowMax : List Vec → Vec
  | [] => []
  | r :: rs => rs.foldl vmax r

/-- `nn.MaxPool2d(kernel_size=(kh, 1), stride=1)` on a 4-D input
`(N, C, H, W)`: output height is `H - kh + 1` and each output row is
the element-wise maximum of the `kh` input rows of its window. -/
def maxPool2dKh1 (kh : Nat) (x : List (List (List Vec))) :
    List (List (List Vec)) :=
  x.map (fun c => c.map (fun mat =>
    (List.range (mat.length + 1 - kh)).map
      (fun i => windowMax ((mat.drop i).take kh))))

/-- Lines 242-243 of occformer.py:
`x_queries = self.mode_pool_module(motion_queries); x_queries[..., 0, :]`
with `mode_pool_module = nn.MaxPool2d((num_modes, 1), stride=1)`. -/
def occModePool (numModes : Nat) (motion : List (List (List Vec))) :
    List (List Vec) :=
  (maxPool2dKh1 numModes motion).map (fun c => c.map
    (fun mat => mat.getD 0 []))

lemma foldl_vmax_getD (e : Nat) (E : Nat) (he : e < E) :
    ∀ (rs : List Vec) (r : Vec), r.length = E →
    (∀ x ∈ rs, x.length = E) →
    ((∃ x ∈ r :: rs, (rs.foldl vmax r).getD e 0 = x.getD e 0)
      ∧ (∀ x ∈ r :: rs, x.getD e 0 ≤ (rs.foldl vmax r).getD e 0)) := by
  intro rs
  induction rs with
  | nil =>
    intro r hr _
    refine ⟨⟨r, List.mem_cons_self r [], rfl⟩, ?_⟩
    intro x hx
    rcases List.mem_cons.mp hx with h | h
    · subst h; exact le_refl _
    · cases h
  | cons a as ih =>
    intro r hr hmem
    have ha : a.length = E := hmem a (List.mem_cons_self a as)
    have hva : (vmax r a).length = E := by
      rw [vmax, List.length_zipWith, hr, ha, Nat.min_self]
    have hgetv : (vmax r a).getD e 0 = max (r.getD e 0) (a.getD e 0) := by
      rw [List.getD_eq_getElem _ _ (by rw [hva]; exact he),
        List.getD_eq_getElem _ _ (by rw [hr]; exact he),
        List.getD_eq_getElem _ _ (by rw [ha]; exact he)]
      exact List.getElem_zipWith
    have hstep : (a :: as).foldl vmax r = as.foldl vmax (vmax r a) := rfl
    obtain ⟨⟨x, hxmem, hxval⟩, hub⟩ :=
      ih (vmax r a) hva (fun x hx => hmem x (List.mem_cons_of_mem a hx))
    rw [hstep]
    constructor
    · rcases List.mem_cons.mp hxmem with hxh | hxt
      · subst hxh
        rw [hgetv] at hxval
        rcases max_choice (r.getD e 0) (a.getD e 0) with hc | hc
        · exact ⟨r, List.mem_cons_self r _, by rw [hxval, hc]⟩
        · exact ⟨a, List.mem_cons_of_mem r (List.mem_cons_self a as),
            by rw [hxval, hc]⟩
      · exact ⟨x, List.mem_cons_of_mem r (List.mem_cons_of_mem a hxt),
          hxval⟩
    · intro y hy
      have h1 : (vmax r a).getD e 0
          ≤ (as.foldl vmax (vmax r a)).getD e 0 :=
        hub (vmax r a) (List.mem_cons_self _ _)
      rcases List.mem_cons.mp hy with hyh | hyt
      · have h2 : y.getD e 0 ≤ (vmax r a).getD e 0 := by
          rw [hyh, hgetv]
          exact le_max_left _ _
        exact le_trans h2 h1
      · rcases List.mem_cons.mp hyt with hyh | hyt2
        · have h2 : y.getD e 0 ≤ (vmax r a).getD e 0 := by
            rw [hyh, hgetv]
            exact le_max_right _ _
          exact le_trans h2 h1
        · exact hub y (List.mem_cons_of_mem _ hyt2)

lemma getD_map {α β : Type} (f : α → β) (l : List α) (i : Nat) (d : β)
    (d' : α) (hi : i < l.length) :
    (l.map f).getD i d = f (l.getD i d') := by
  rw [List.getD_eq_getElem _ _ (by rw [List.length_map]; exact hi),
    List.getElem_map, List.getD_eq_getElem _ _ hi]

lemma windowMax_getD (e E : Nat) (he : e < E) (mat : List Vec)
    (hne : mat ≠ []) (hrows : ∀ r ∈ mat, r.length = E) :
    (∃ k, k < mat.length ∧
      (windowMax mat).getD e 0 = (mat.getD k []).getD e 0)
    ∧ (∀ k, k < mat.length →
      (mat.getD k []).getD e 0 ≤ (windowMax mat).getD e 0) := by
  cases mat with
  | nil => cases hne rfl
  | cons r rs =>
    obtain ⟨⟨x, hxmem, hxval⟩, hub⟩ := foldl_vmax_getD e E he rs r
      (hrows r (List.mem_cons_self r rs))
      (fun x hx => hrows x (List.mem_cons_of_mem r hx))
    constructor
    · obtain ⟨k, hk, hkx⟩ := List.mem_iff_getElem.mp hxmem
      refine ⟨k, hk, ?_⟩
      show (rs.foldl vmax r).getD e 0 = _
      rw [hxval, List.getD_eq_getElem _ _ hk, hkx]
    · intro k hk
      exact hub _ (getD_mem_of_lt (r :: rs) k [] hk)

/-- **C9.** `OccFormer.forward`'s mode pooling (occformer.py lines 165
and 242-243) reduces the `(batch, agents, num_modes, embed)` motion
queries to one vector per agent equal to the element-wise maximum over
the mode axis: for every batch index `n`, agent `a` and channel `e`, the
pooled value is attained by some mode and is an upper bound of every
mode's value at that channel. -/
theorem occformer_mode_maxpool (K E : Nat) (motion : List (List (List Vec)))
    (n a e : Nat) (hK : 1 ≤ K) (he : e < E)
    (hn : n < motion.length)
    (ha : a < (motion.getD n []).length)
    (hmat : ((motion.getD n []).getD a []).length = K)
    (hrows : ∀ r ∈ (motion.getD n []).getD a [], r.length = E) :
    (∃ k, k < K ∧
      ((((occModePool K motion).getD n []).getD a []).getD e 0
        = (((motion.getD n []).getD a []).getD k []).getD e 0))
    ∧ (∀ k, k < K →
      ((((motion.getD n []).getD a []).getD k []).getD e 0)
        ≤ (((occModePool K motion).getD n []).getD a []).getD e 0) := by
  have hpool : ((occModePool K motion).getD n []).getD a []
      = windowMax ((motion.getD n []).getD a []) := by
    unfold occModePool maxPool2dKh1
    rw [getD_map _ _ n [] [] (by rw [List.length_map]; exact hn),
      getD_map _ _ n [] [] hn,
      getD_map _ _ a [] [] (by rw [List.length_map]; exact ha),
      getD_map _ _ a [] [] ha, hmat]
    have hr1 : K + 1 - K = 1 := by omega
    rw [hr1]
    have hone : (List.range 1).map (fun i =>
        windowMax ((((motion.getD n []).getD a []).drop i).take K))
        = [windowMax ((((motion.getD n []).getD a []).drop 0).take K)] :=
      rfl
    rw [hone]
    have htake : (((motion.getD n []).getD a []).drop 0).take K
        = (motion.getD n []).getD a [] := by
      rw [List.drop_zero, ← hmat, List.take_length]
    rw [htake]
    rfl
  have hne : (motion.getD n []).getD a [] ≠ [] := by
    intro hnil
    rw [hnil] at hmat
    simp at hmat
    omega
  obtain ⟨⟨k, hk, hkval⟩, hub⟩ :=
    windowMax_getD e E he ((motion.getD n []).getD a []) hne hrows
  refine ⟨⟨k, by rw [← hmat]; exact hk, by rw [hpool]; exact hkval⟩, ?_⟩
  intro j hj
  rw [hpool]
  exact hub j (by rw [hmat]; exact hj)

/-- Witness for C9 at a concrete input: one batch element, one agent,
two modes over two channels, `[[1, 5], [3, 2]]`; the pooled vector is
`[3, 5]`. -/
theorem occformer_mode_maxpool_witness :
    (1 ≤ 2) ∧ (0 < 2)
    ∧ (∀ k, k < 2 →
      ((((([[[[1, 5], [3, 2]]]] : List (List (List Vec))).getD 0
          []).getD 0 []).getD k []).getD 1 0)
        ≤ (((occModePool 2 [[[[1, 5], [3, 2]]]]).getD 0 []).getD 0
            []).getD 1 0) :=
  ⟨by decide, by decide,
    (occformer_mode_maxpool 2 2 [[[[1, 5], [3, 2]]]] 0 0 1
      (by decide) (by decide) (by decide) (by decide) (by decide)
      (by decide)).2⟩

/-! ## OccFormer.forward, shape semantics
    (src/modules/occformer.py lines 16-118 and 121-289)

Tensors are represented by their shapes (`List Nat`); every operation is
an `Except`-valued shape function that fails exactly where the torch
call would raise. -/

/-- A tensor shape. -/
abbrev Shape := List Nat

/-- `torch.reshape` to an explicit target shape: succeeds iff the
element counts agree. -/
def reshapeShape (s t : Shape) : Except PyError Shape :=
  if s.prod = t.prod then Except.ok t else Except.error PyError.runtimeError

/-- `torch.reshape` of a rank-3/4 source to `(n, -1, …known…)`: the
`-1` dimension is inferred; fails when the known element count is zero
or does not divide the source's element count. -/
def reshapeInferShape (s : Shape) (pre : List Nat) (post : List Nat) :
    Except PyError Shape :=
  let known := pre.prod * post.prod
  if 0 < known ∧ s.prod % known = 0 then
    Except.ok (pre ++ [s.prod / known] ++ post)
  else Except.error PyError.runtimeError

/-- `x.permute(0, 2, 1)` on a rank-3 tensor. -/
def permute021 (s : Shape) : Except PyError Shape :=
  match s with
  | [a, b, c] => Except.ok [a, c, b]
  | _ => Except.error PyError.runtimeError

/-- `x.permute(0, 2, 1, 3)` on a rank-4 tensor. -/
def permute0213 (s : Shape) : Except PyError Shape :=
  match s with
  | [a, b, c, d] => Except.ok [a, c, b, d]
  | _ => Except.error PyError.runtimeError

/-- Batched `torch.matmul` of two rank-3 tensors. -/
def matmul3Shape (a b : Shape) : Except PyError Shape :=
  match a, b with
  | [n, p, q], [n2, q2, r] =>
    if n2 = n ∧ q2 = q then Except.ok [n, p, r]
    else Except.error PyError.runtimeError
  | _, _ => Except.error PyError.runtimeError

/-- `nn.Upsample(scale_factor=1/s, mode="bilinear")` on a rank-4 input. -/
def downsampleShape (s : Nat) (x : Shape) : Except PyError Shape :=
  match x with
  | [n, c, h, w] => Except.ok [n, c, h / s, w / s]
  | _ => Except.error PyError.runtimeError

/-- `nn.Upsample(scale_factor=s, mode="bilinear")` on a rank-4 input. -/
def upsampleShape (s : Nat) (x : Shape) : Except PyError Shape :=
  match x with
  | [n, c, h, w] => Except.ok [n, c, h * s, w * s]
  | _ => Except.error PyError.runtimeError

/-- `nn.MaxPool2d(kernel_size=(kh, 1), stride=1)` on a rank-4 input. -/
def maxPool2dShape (kh : Nat) (x : Shape) : Except PyError Shape :=
  match x with
  | [n, c, h, w] =>
    if kh ≤ h then Except.ok [n, c, h - kh + 1, w]
    else Except.error PyError.runtimeError
  | _ => Except.error PyError.runtimeError

/-- `x[..., 0, :]` on a rank-4 tensor. -/
def index0dim2Shape (x : Shape) : Except PyError Shape :=
  match x with
  | [n, c, h, w] =>
    if 1 ≤ h then Except.ok [n, c, w] else Except.error PyError.runtimeError
  | _ => Except.error PyError.runtimeError

/-- Residual addition `a + b` of two same-shape tensors. -/
def addSameShape (a b : Shape) : Except PyError Shape :=
  if a = b then Except.ok a else Except.error PyError.runtimeError

/-- `torch.concat([a, b, c], dim=-1)` of three rank-3 tensors. -/
def concatLastShape (a b c : Shape) : Except PyError Shape :=
  match a, b, c with
  | [n1, a1, d1], [n2, a2, d2], [n3, a3, d3] =>
    if n2 = n1 ∧ n3 = n1 ∧ a2 = a1 ∧ a3 = a1 then
      Except.ok [n1, a1, d1 + d2 + d3]
    else Except.error PyError.runtimeError
  | _, _, _ => Except.error PyError.runtimeError

/-- `torch.stack(xs, dim=2)` of a list of same-shape rank-4 tensors. -/
def stackDim2Shape (xs : List Shape) : Except PyError Shape :=
  match xs with
  | [] => Except.error PyError.runtimeError
  | s :: rest =>
    if ∀ x ∈ rest, x = s then
      match s with
      | [a, b, h, w] => Except.ok [a, b, xs.length, h, w]
      | _ => Except.error PyError.runtimeError
    else Except.error PyError.runtimeError

/-- Modelled from the spec: `MultiHeadedAttention`
(modules/attentions.py, absent from this snapshot) is a black-box
standard multi-head attention; its output has the query's shape, key and
value agree in batch/length, all embedding widths equal `E`, and an
optional additive attention mask must match the score shape
`(batch, len_q, len_k)`. -/
def mhaShape (E : Nat) (q k v : Shape) (mask : Option Shape) :
    Except PyError Shape :=
  match q, k, v with
  | [n, lq, e1], [n2, lk, e2], [n3, lv, e3] =>
    if n2 = n ∧ n3 = n ∧ e1 = E ∧ e2 = E ∧ e3 = E ∧ lv = lk then
      match mask with
      | none => Except.ok [n, lq, e1]
      | some m =>
        if m = [n, lq, lk] then Except.ok [n, lq, e1]
        else Except.error PyError.runtimeError
    else Except.error PyError.runtimeError
  | _, _, _ => Except.error PyError.runtimeError

/-- Modelled from the spec: `AddNorm` (modules/common.py, absent from
this snapshot) is a black-box residual-add-then-normalize block; its two
inputs have equal shape, which is also its output shape. -/
def addnormShape (a b : Shape) : Except PyError Shape :=
  if a = b then Except.ok a else Except.error PyError.runtimeError

/-- Modelled from the spec: `PosEmbedding1D` (modules/common.py, absent
from this snapshot) maps a `(batch, agents)` index grid to one embedding
per agent slot, shape `(batch, agents, E)`. -/
def posEmbShape (E : Nat) (idx : Shape) : Except PyError Shape :=
  match idx with
  | [n, a] => Except.ok [n, a, E]
  | _ => Except.error PyError.runtimeError

/-- Modelled from the spec: `TemporalSpecificMLP(embed_dim * 3,
embed_dim, …)` (modules/common.py, absent from this snapshot) is a
per-timestep MLP family mapping `(batch, agents, 3·E)` to
`(batch, agents, E)`. -/
def temporalMLPShape (E : Nat) (s : Shape) : Except PyError Shape :=
  match s with
  | [n, a, d] =>
    if d = 3 * E then Except.ok [n, a, E]
    else Except.error PyError.runtimeError
  | _ => Except.error PyError.runtimeError

/-- Modelled from the spec: `SimpleMLP(E, E, …)` (modules/common.py,
absent from this snapshot) is a width-preserving feed-forward MLP on the
last axis. -/
def simpleMLPShape (E : Nat) (s : Shape) : Except PyError Shape :=
  match s with
  | [n, a, d] =>
    if d = E then Except.ok [n, a, E] else Except.error PyError.runtimeError
  | _ => Except.error PyError.runtimeError

/-- Modelled from the spec: the `conv_transpose` stack (occformer.py
lines 178-188; `ConvBNorm`/`ConvTransposeBNorm` live in
modules/common.py, absent from this snapshot) upsamples the dense map
back to full BEV resolution: two kernel-1 convolutions preserve the
spatial shape and the transposed convolution with
`kernel_size = stride = s` scales it by `s`; channel width must be
`E`. -/
def convTransposeStackShape (E s : Nat) (x : Shape) :
    Except PyError Shape :=
  match x with
  | [n, c, h, w] =>
    if c = E then Except.ok [n, E, h * s, w * s]
    else Except.error PyError.runtimeError
  | _ => Except.error PyError.runtimeError

/-- The `masked_fill` of the raw attention mask with the broadcast
`pad_mask[:, None, :]` (occformer.py lines 101-104): asserts the pad
mask is rank 2, then requires it to broadcast against the
`(batch, positions, agents)` mask. -/
def padMaskFillShape (mask : Shape) (pm : Shape) : Except PyError Shape :=
  if pm.length = 2 then
    if pm.getD 0 0 = mask.getD 0 0 ∧ pm.getD 1 0 = mask.getD 2 0 then
      Except.ok mask
    else Except.error PyError.runtimeError
  else Except.error PyError.assertError

/-- Constructor configuration of `OccFormer` (occformer.py lines
122-158) restricted to the fields its forward shape behaviour uses. -/
structure OccCfg where
  embed_dim : Nat
  num_modes : Nat
  pred_horizon : Nat
  bev_h : Nat
  bev_w : Nat
  s_bev : Nat
  s_op : Nat

/-- `OccFormerDecoderLayer.forward` (occformer.py lines 54-118) as a
shape function.  `dense` is the current dense feature map, `agent` and
`maskF` the per-agent features; returns the next dense map and, when
`retMask` is set, the reshaped attention mask. -/
def occLayerShape (cfg : OccCfg) (dense agent maskF : Shape)
    (retMask : Bool) (padMask : Option Shape) :
    Except PyError (Shape × Option Shape) := do
  let ds1 := cfg.bev_h / cfg.s_bev / cfg.s_op
  let ds2 := cfg.bev_w / cfg.s_bev / cfg.s_op
  match dense with
  | [n, c, h, w] => do
    let flat ← reshapeShape [n, h / cfg.s_op, w / cfg.s_op, c]
      [n, ds1 * ds2, cfg.embed_dim]
    let out1 ← mhaShape cfg.embed_dim flat flat flat none
    let out2 ← addnormShape flat out1
    let maskT ← permute021 maskF
    let mask ← matmul3Shape out2 maskT
    let mask ← (match padMask with
      | some pm => padMaskFillShape mask pm
      | none => Except.ok mask)
    let out3 ← mhaShape cfg.embed_dim out2 agent agent (some mask)
    let out4 ← addnormShape out2 out3
    let p ← permute021 out4
    let sp ← reshapeShape p [n, cfg.embed_dim, ds1, ds2]
    let up ← upsampleShape cfg.s_op sp
    let out5 ← addSameShape up dense
    if retMask then do
      let mt ← permute021 mask
      let m ← reshapeInferShape mt [mask.getD 0 0] [ds1, ds2]
      return (out5, some m)
    else
      return (out5, none)
  | _ => Except.error PyError.runtimeError

/-- The shape-level asserts at the top of `OccFormer.forward`
(occformer.py lines 234-237), executed before any computation. -/
def occAsserts (E K : Nat) (bev track motion : Shape) :
    Except PyError Unit :=
  if track.getD 1 0 = motion.getD 1 0
      ∧ (track.getD 2 0 = motion.getD 3 0 ∧ motion.getD 3 0 = E)
      ∧ motion.getD 2 0 = K
      ∧ bev.getD 2 0 = E then
    Except.ok ()
  else Except.error PyError.assertError

/-- The per-timestep loop of `OccFormer.forward` (occformer.py lines
256-281), threading the dense feature map between timesteps and
accumulating occupancy and attention-mask shapes. -/
def occLoopShape (cfg : OccCfg) (training : Bool) (N A : Nat)
    (sparse : Shape) (padMask : Option Shape) :
    Nat → Shape → List Shape → List Shape →
    Except PyError (List Shape × List Shape)
  | 0, _, occAcc, mAcc => Except.ok (occAcc, mAcc)
  | t + 1, dense, occAcc, mAcc => do
    let agent ← temporalMLPShape cfg.embed_dim sparse
    let maskF ← simpleMLPShape cfg.embed_dim agent
    let lay ← occLayerShape cfg dense agent maskF training padMask
    let mAcc2 := match lay.2 with
      | some m => mAcc ++ [m]
      | none => mAcc
    let occF ← simpleMLPShape cfg.embed_dim maskF
    let proba ← convTransposeStackShape cfg.embed_dim cfg.s_bev lay.1
    let probaT ← permute0213 proba
    let probaR ← reshapeInferShape probaT [N] [cfg.embed_dim]
    let probaRT ← permute021 probaR
    let occ1 ← matmul3Shape occF probaRT
    let occ2 ← permute021 occ1
    let occ3 ← reshapeShape occ2 [N, A, cfg.bev_h, cfg.bev_w]
    occLoopShape cfg training N A sparse padMask t lay.1
      (occAcc ++ [occ3]) mAcc2

/-- `OccFormer.forward` (occformer.py lines 209-289) as a shape
function: validate preconditions, pool modes, build sparse agent
features, downsample BEV features, run the per-timestep loop
(`num_layers = pred_horizon`) and stack occupancies (and attention
masks unless in inference mode) on a new time axis at dimension 2. -/
def occformerForwardShape (cfg : OccCfg) (training : Bool)
    (bev track motion : Shape) (padMask : Option Shape) :
    Except PyError (Shape × Option Shape) := do
  let _ ← occAsserts cfg.embed_dim cfg.num_modes bev track motion
  let N := track.getD 0 0
  let A := track.getD 1 0
  let pooled ← maxPool2dShape cfg.num_modes motion
  let xq ← index0dim2Shape pooled
  let pos ← posEmbShape cfg.embed_dim [N, A]
  let sparse ← concatLastShape track pos xq
  let bevT ← permute021 bev
  let bevSp ← reshapeShape bevT [N, cfg.embed_dim, cfg.bev_h, cfg.bev_w]
  let dense0 ← downsampleShape cfg.s_bev bevSp
  let acc ← occLoopShape cfg training N A sparse padMask
    cfg.pred_horizon dense0 [] []
  let occStack ← stackDim2Shape acc.1
  if 0 < acc.2.length then do
    let mStack ← stackDim2Shape acc.2
    return (occStack, some mStack)
  else
    return (occStack, none)



lemma ebind {α β : Type} (a : α) (f : α → Except PyError β) :
    (Except.ok a >>= f : Except PyError β) = f a := rfl

lemma occLayer_step (E K T dsH dsW sOp sBev N A : Nat) (training : Bool)
    (padMask : Option Shape)
    (hN : 0 < N) (hd1 : 0 < dsH) (hd2 : 0 < dsW)
    (hsOp : 0 < sOp) (hsBev : 0 < sBev)
    (hpm : padMask = none ∨ padMask = some [N, A]) :
    occLayerShape (OccCfg.mk E K T (dsH * sOp * sBev) (dsW * sOp * sBev)
        sBev sOp)
      [N, E, dsH * sOp, dsW * sOp] [N, A, E] [N, A, E] training padMask
    = Except.ok ([N, E, dsH * sOp, dsW * sOp],
        if training then some [N, A, dsH, dsW] else none) := by
  have ehs : dsH * sOp / sOp = dsH := Nat.mul_div_cancel _ hsOp
  have ehw : dsW * sOp / sOp = dsW := Nat.mul_div_cancel _ hsOp
  have eds1 : dsH * sOp * sBev / sBev / sOp = dsH := by
    rw [Nat.mul_div_cancel _ hsBev, Nat.mul_div_cancel _ hsOp]
  have eds2 : dsW * sOp * sBev / sBev / sOp = dsW := by
    rw [Nat.mul_div_cancel _ hsBev, Nat.mul_div_cancel _ hsOp]
  have h1 : reshapeShape [N, dsH, dsW, E] [N, dsH * dsW, E]
      = Except.ok [N, dsH * dsW, E] := by
    have hp : List.prod [N, dsH, dsW, E] = List.prod [N, dsH * dsW, E] := by
      simp only [List.prod_cons, List.prod_nil]
      ring
    unfold reshapeShape
    rw [if_pos hp]
  have h2 : mhaShape E [N, dsH * dsW, E] [N, dsH * dsW, E]
      [N, dsH * dsW, E] none = Except.ok [N, dsH * dsW, E] := by
    simp [mhaShape]
  have h3 : addnormShape [N, dsH * dsW, E] [N, dsH * dsW, E]
      = Except.ok [N, dsH * dsW, E] := by
    simp [addnormShape]
  have h4 : permute021 [N, A, E] = Except.ok [N, E, A] := rfl
  have h5 : matmul3Shape [N, dsH * dsW, E] [N, E, A]
      = Except.ok [N, dsH * dsW, A] := by
    simp [matmul3Shape]
  have h6 : padMaskFillShape [N, dsH * dsW, A] [N, A]
      = Except.ok [N, dsH * dsW, A] := by
    simp [padMaskFillShape]
  have h7 : mhaShape E [N, dsH * dsW, E] [N, A, E] [N, A, E]
      (some [N, dsH * dsW, A]) = Except.ok [N, dsH * dsW, E] := by
    simp [mhaShape]
  have h9 : permute021 [N, dsH * dsW, E] = Except.ok [N, E, dsH * dsW] :=
    rfl
  have h10 : reshapeShape [N, E, dsH * dsW] [N, E, dsH, dsW]
      = Except.ok [N, E, dsH, dsW] := by
    have hp : List.prod [N, E, dsH * dsW] = List.prod [N, E, dsH, dsW] := by
      simp only [List.prod_cons, List.prod_nil]
      ring
    unfold reshapeShape
    rw [if_pos hp]
  have h11 : upsampleShape sOp [N, E, dsH, dsW]
      = Except.ok [N, E, dsH * sOp, dsW * sOp] := rfl
  have h12 : addSameShape [N, E, dsH * sOp, dsW * sOp]
      [N, E, dsH * sOp, dsW * sOp]
      = Except.ok [N, E, dsH * sOp, dsW * sOp] := by
    simp [addSameShape]
  have h13 : permute021 [N, dsH * dsW, A] = Except.ok [N, A, dsH * dsW] :=
    rfl
  have h14 : reshapeInferShape [N, A, dsH * dsW] [N] [dsH, dsW]
      = Except.ok [N, A, dsH, dsW] := by
    have hsrc : List.prod [N, A, dsH * dsW] = (N * (dsH * dsW)) * A := by
      simp only [List.prod_cons, List.prod_nil]
      ring
    have hknown : List.prod [N] * List.prod [dsH, dsW]
        = N * (dsH * dsW) := by
      simp only [List.prod_cons, List.prod_nil]
      ring
    simp only [reshapeInferShape, hsrc, hknown]
    rw [if_pos ⟨by positivity, Nat.mul_mod_right _ _⟩,
      Nat.mul_div_cancel_left A (by positivity)]
    rfl
  unfold occLayerShape
  simp only [eds1, eds2, ehs, ehw]
  rcases hpm with h | h <;> subst h <;> cases training <;>
    simp only [h1, h2, h3, h4, h5, h6, h7, h9, h10, h11, h12, h13, h14,
      ebind, List.getD_cons_zero, if_true, if_false, Bool.false_eq_true] <;>
    rfl



lemma ebind_err {α β : Type} (e : PyError) (f : α → Except PyError β) :
    (Except.error e >>= f : Except PyError β) = Except.error e := rfl

lemma stackDim2_replicate (T a b h w : Nat) (hT : 1 ≤ T) :
    stackDim2Shape (List.replicate T [a, b, h, w])
      = Except.ok [a, b, T, h, w] := by
  cases T with
  | zero => omega
  | succ t =>
    rw [List.replicate_succ]
    show (if ∀ x ∈ List.replicate t ([a, b, h, w] : Shape),
        x = [a, b, h, w] then
        Except.ok [a, b,
          (([a, b, h, w] : Shape) :: List.replicate t [a, b, h, w]).length,
          h, w]
      else Except.error PyError.runtimeError) = Except.ok [a, b, t + 1, h, w]
    rw [if_pos (fun x hx => List.eq_of_mem_replicate hx)]
    rw [show (([a, b, h, w] : Shape) :: List.replicate t [a, b, h, w]).length
      = t + 1 by simp]

lemma occLoop_inv (E K T dsH dsW sOp sBev N A : Nat) (training : Bool)
    (padMask : Option Shape)
    (hE : 0 < E) (hN : 0 < N) (hd1 : 0 < dsH) (hd2 : 0 < dsW)
    (hsOp : 0 < sOp) (hsBev : 0 < sBev)
    (hpm : padMask = none ∨ padMask = some [N, A]) :
    ∀ (t : Nat) (occAcc mAcc : List Shape),
    occLoopShape (OccCfg.mk E K T (dsH * sOp * sBev) (dsW * sOp * sBev)
        sBev sOp) training N A [N, A, E + E + E] padMask t
      [N, E, dsH * sOp, dsW * sOp] occAcc mAcc
    = Except.ok
        (occAcc ++ List.replicate t
          [N, A, dsH * sOp * sBev, dsW * sOp * sBev],
         mAcc ++ (if training then List.replicate t [N, A, dsH, dsW]
           else [])) := by
  intro t
  induction t with
  | zero =>
    intro occAcc mAcc
    cases training <;> simp [occLoopShape]
  | succ t ih =>
    intro occAcc mAcc
    have ha : temporalMLPShape E [N, A, E + E + E]
        = Except.ok [N, A, E] := by
      show (if E + E + E = 3 * E then Except.ok [N, A, E]
        else Except.error PyError.runtimeError) = Except.ok [N, A, E]
      rw [if_pos (by ring)]
    have hm : simpleMLPShape E [N, A, E] = Except.ok [N, A, E] := by
      simp [simpleMLPShape]
    have hlay := occLayer_step E K T dsH dsW sOp sBev N A training padMask
      hN hd1 hd2 hsOp hsBev hpm
    have hct : convTransposeStackShape E sBev [N, E, dsH * sOp, dsW * sOp]
        = Except.ok [N, E, dsH * sOp * sBev, dsW * sOp * sBev] := by
      simp [convTransposeStackShape]
    have hpt : permute0213 [N, E, dsH * sOp * sBev, dsW * sOp * sBev]
        = Except.ok [N, dsH * sOp * sBev, E, dsW * sOp * sBev] := rfl
    have hri : reshapeInferShape
        [N, dsH * sOp * sBev, E, dsW * sOp * sBev] [N] [E]
        = Except.ok
          [N, dsH * sOp * sBev * (dsW * sOp * sBev), E] := by
      have hsrc : List.prod [N, dsH * sOp * sBev, E, dsW * sOp * sBev]
          = (N * E) * (dsH * sOp * sBev * (dsW * sOp * sBev)) := by
        simp only [List.prod_cons, List.prod_nil]
        ring
      have hknown : List.prod [N] * List.prod [E] = N * E := by
        simp only [List.prod_cons, List.prod_nil]
        ring
      simp only [reshapeInferShape, hsrc, hknown]
      rw [if_pos ⟨by positivity, Nat.mul_mod_right _ _⟩,
        Nat.mul_div_cancel_left _ (by positivity)]
      rfl
    have hprt : permute021 [N, dsH * sOp * sBev * (dsW * sOp * sBev), E]
        = Except.ok [N, E, dsH * sOp * sBev * (dsW * sOp * sBev)] := rfl
    have hmm : matmul3Shape [N, A, E]
        [N, E, dsH * sOp * sBev * (dsW * sOp * sBev)]
        = Except.ok [N, A, dsH * sOp * sBev * (dsW * sOp * sBev)] := by
      simp [matmul3Shape]
    have hp2 : permute021 [N, A, dsH * sOp * sBev * (dsW * sOp * sBev)]
        = Except.ok [N, dsH * sOp * sBev * (dsW * sOp * sBev), A] := rfl
    have hrs : reshapeShape [N, dsH * sOp * sBev * (dsW * sOp * sBev), A]
        [N, A, dsH * sOp * sBev, dsW * sOp * sBev]
        = Except.ok [N, A, dsH * sOp * sBev, dsW * sOp * sBev] := by
      have hp : List.prod [N, dsH * sOp * sBev * (dsW * sOp * sBev), A]
          = List.prod [N, A, dsH * sOp * sBev, dsW * sOp * sBev] := by
        simp only [List.prod_cons, List.prod_nil]
        ring
      unfold reshapeShape
      rw [if_pos hp]
    cases training with
    | false =>
      show (do
        let agent ← temporalMLPShape E [N, A, E + E + E]
        let maskF ← simpleMLPShape E agent
        let lay ← occLayerShape (OccCfg.mk E K T (dsH * sOp * sBev)
            (dsW * sOp * sBev) sBev sOp)
          [N, E, dsH * sOp, dsW * sOp] agent maskF false padMask
        let mAcc2 := match lay.2 with
          | some m => mAcc ++ [m]
          | none => mAcc
        let occF ← simpleMLPShape E maskF
        let proba ← convTransposeStackShape E sBev lay.1
        let probaT ← permute0213 proba
        let probaR ← reshapeInferShape probaT [N] [E]
        let probaRT ← permute021 probaR
        let occ1 ← matmul3Shape occF probaRT
        let occ2 ← permute021 occ1
        let occ3 ← reshapeShape occ2
          [N, A, dsH * sOp * sBev, dsW * sOp * sBev]
        occLoopShape (OccCfg.mk E K T (dsH * sOp * sBev)
            (dsW * sOp * sBev) sBev sOp) false N A [N, A, E + E + E]
          padMask t lay.1 (occAcc ++ [occ3]) mAcc2) = _
      rw [ha]
      simp only [ebind]
      rw [hm]
      simp only [ebind]
      rw [hlay]
      simp only [ebind]
      rw [hm]
      simp only [ebind]
      rw [hct]
      simp only [ebind]
      rw [hpt]
      simp only [ebind]
      rw [hri]
      simp only [ebind]
      rw [hprt]
      simp only [ebind]
      rw [hmm]
      simp only [ebind]
      rw [hp2]
      simp only [ebind]
      rw [hrs]
      simp only [ebind]
      rw [ih]
      simp [List.replicate_succ]
    | true =>
      show (do
        let agent ← temporalMLPShape E [N, A, E + E + E]
        let maskF ← simpleMLPShape E agent
        let lay ← occLayerShape (OccCfg.mk E K T (dsH * sOp * sBev)
            (dsW * sOp * sBev) sBev sOp)
          [N, E, dsH * sOp, dsW * sOp] agent maskF true padMask
        let mAcc2 := match lay.2 with
          | some m => mAcc ++ [m]
          | none => mAcc
        let occF ← simpleMLPShape E maskF
        let proba ← convTransposeStackShape E sBev lay.1
        let probaT ← permute0213 proba
        let probaR ← reshapeInferShape probaT [N] [E]
        let probaRT ← permute021 probaR
        let occ1 ← matmul3Shape occF probaRT
        let occ2 ← permute021 occ1
        let occ3 ← reshapeShape occ2
          [N, A, dsH * sOp * sBev, dsW * sOp * sBev]
        occLoopShape (OccCfg.mk E K T (dsH * sOp * sBev)
            (dsW * sOp * sBev) sBev sOp) true N A [N, A, E + E + E]
          padMask t lay.1 (occAcc ++ [occ3]) mAcc2) = _
      rw [ha]
      simp only [ebind]
      rw [hm]
      simp only [ebind]
      rw [hlay]
      simp only [ebind]
      rw [hm]
      simp only [ebind]
      rw [hct]
      simp only [ebind]
      rw [hpt]
      simp only [ebind]
      rw [hri]
      simp only [ebind]
      rw [hprt]
      simp only [ebind]
      rw [hmm]
      simp only [ebind]
      rw [hp2]
      simp only [ebind]
      rw [hrs]
      simp only [ebind]
      rw [ih]
      simp [List.replicate_succ]



/-- **C7.** (partly spec-modelled black-box shape contracts, see the
definitions above.)  For every valid input to `OccFormer.forward`
(occformer.py lines 209-289) — any batch size `N ≥ 1`, any agent count
`A`, mode count equal to the configured `num_modes` with `K ≥ 1`, BEV
grid `(dsH·sOp·sBev, dsW·sOp·sBev)` compatible with the downsample
scales, in training or inference mode, with or without a pad mask — the
returned occupancy tensor has shape
`(N, A, pred_horizon, H_bev, W_bev)`: one per-agent map per forecast
timestep, all `pred_horizon` of them stacked on a new time axis at
dimension 2. -/
theorem occformer_occupancy_shape (E K T dsH dsW sOp sBev N A : Nat)
    (training : Bool) (padMask : Option Shape)
    (hE : 0 < E) (hN : 0 < N) (hd1 : 0 < dsH) (hd2 : 0 < dsW)
    (hsOp : 0 < sOp) (hsBev : 0 < sBev) (_hK : 1 ≤ K) (hT : 1 ≤ T)
    (hpm : padMask = none ∨ padMask = some [N, A]) :
    occformerForwardShape
      (OccCfg.mk E K T (dsH * sOp * sBev) (dsW * sOp * sBev) sBev sOp)
      training
      [N, dsH * sOp * sBev * (dsW * sOp * sBev), E]
      [N, A, E] [N, A, K, E] padMask
    = Except.ok ([N, A, T, dsH * sOp * sBev, dsW * sOp * sBev],
        if training then some [N, A, T, dsH, dsW] else none) := by
  have hassert : occAsserts E K
      [N, dsH * sOp * sBev * (dsW * sOp * sBev), E] [N, A, E]
      [N, A, K, E] = Except.ok () := by
    simp [occAsserts]
  have hpool : maxPool2dShape K [N, A, K, E] = Except.ok [N, A, 1, E] := by
    show (if K ≤ K then Except.ok [N, A, K - K + 1, E]
      else Except.error PyError.runtimeError) = Except.ok [N, A, 1, E]
    rw [if_pos le_rfl, Nat.sub_self]
  have hxq : index0dim2Shape [N, A, 1, E] = Except.ok [N, A, E] := by
    simp [index0dim2Shape]
  have hpos : posEmbShape E [N, A] = Except.ok [N, A, E] := rfl
  have hsp : concatLastShape [N, A, E] [N, A, E] [N, A, E]
      = Except.ok [N, A, E + E + E] := by
    simp [concatLastShape]
  have hbt : permute021 [N, dsH * sOp * sBev * (dsW * sOp * sBev), E]
      = Except.ok [N, E, dsH * sOp * sBev * (dsW * sOp * sBev)] := rfl
  have hbs : reshapeShape [N, E, dsH * sOp * sBev * (dsW * sOp * sBev)]
      [N, E, dsH * sOp * sBev, dsW * sOp * sBev]
      = Except.ok [N, E, dsH * sOp * sBev, dsW * sOp * sBev] := by
    have hp : List.prod [N, E, dsH * sOp * sBev * (dsW * sOp * sBev)]
        = List.prod [N, E, dsH * sOp * sBev, dsW * sOp * sBev] := by
      simp only [List.prod_cons, List.prod_nil]
      ring
    unfold reshapeShape
    rw [if_pos hp]
  have hd0 : downsampleShape sBev
      [N, E, dsH * sOp * sBev, dsW * sOp * sBev]
      = Except.ok [N, E, dsH * sOp, dsW * sOp] := by
    show Except.ok [N, E, dsH * sOp * sBev / sBev, dsW * sOp * sBev / sBev]
      = Except.ok [N, E, dsH * sOp, dsW * sOp]
    rw [Nat.mul_div_cancel _ hsBev, Nat.mul_div_cancel _ hsBev]
  have hloop := occLoop_inv E K T dsH dsW sOp sBev N A training padMask
    hE hN hd1 hd2 hsOp hsBev hpm T [] []
  rw [List.nil_append] at hloop
  cases training with
  | false =>
    rw [if_neg (by simp)] at hloop
    rw [List.append_nil] at hloop
    show (do
      let _ ← occAsserts E K
        [N, dsH * sOp * sBev * (dsW * sOp * sBev), E] [N, A, E]
        [N, A, K, E]
      let pooled ← maxPool2dShape K [N, A, K, E]
      let xq ← index0dim2Shape pooled
      let pos ← posEmbShape E [N, A]
      let sparse ← concatLastShape [N, A, E] pos xq
      let bevT ← permute021 [N, dsH * sOp * sBev * (dsW * sOp * sBev), E]
      let bevSp ← reshapeShape bevT
        [N, E, dsH * sOp * sBev, dsW * sOp * sBev]
      let dense0 ← downsampleShape sBev bevSp
      let acc ← occLoopShape (OccCfg.mk E K T (dsH * sOp * sBev)
          (dsW * sOp * sBev) sBev sOp) false N A sparse padMask
        T dense0 [] []
      let occStack ← stackDim2Shape acc.1
      if 0 < acc.2.length then do
        let mStack ← stackDim2Shape acc.2
        pure (occStack, some mStack)
      else pure (occStack, none)) = _
    rw [hassert]
    simp only [ebind]
    rw [hpool]
    simp only [ebind]
    rw [hxq]
    simp only [ebind]
    rw [hpos]
    simp only [ebind]
    rw [hsp]
    simp only [ebind]
    rw [hbt]
    simp only [ebind]
    rw [hbs]
    simp only [ebind]
    rw [hd0]
    simp only [ebind]
    rw [hloop]
    simp only [ebind]
    rw [stackDim2_replicate T N A (dsH * sOp * sBev) (dsW * sOp * sBev) hT]
    simp only [ebind]
    simp
    rfl
  | true =>
    rw [if_pos rfl] at hloop
    show (do
      let _ ← occAsserts E K
        [N, dsH * sOp * sBev * (dsW * sOp * sBev), E] [N, A, E]
        [N, A, K, E]
      let pooled ← maxPool2dShape K [N, A, K, E]
      let xq ← index0dim2Shape pooled
      let pos ← posEmbShape E [N, A]
      let sparse ← concatLastShape [N, A, E] pos xq
      let bevT ← permute021 [N, dsH * sOp * sBev * (dsW * sOp * sBev), E]
      let bevSp ← reshapeShape bevT
        [N, E, dsH * sOp * sBev, dsW * sOp * sBev]
      let dense0 ← downsampleShape sBev bevSp
      let acc ← occLoopShape (OccCfg.mk E K T (dsH * sOp * sBev)
          (dsW * sOp * sBev) sBev sOp) true N A sparse padMask
        T dense0 [] []
      let occStack ← stackDim2Shape acc.1
      if 0 < acc.2.length then do
        let mStack ← stackDim2Shape acc.2
        pure (occStack, some mStack)
      else pure (occStack, none)) = _
    rw [hassert]
    simp only [ebind]
    rw [hpool]
    simp only [ebind]
    rw [hxq]
    simp only [ebind]
    rw [hpos]
    simp only [ebind]
    rw [hsp]
    simp only [ebind]
    rw [hbt]
    simp only [ebind]
    rw [hbs]
    simp only [ebind]
    rw [hd0]
    simp only [ebind]
    rw [hloop]
    simp only [ebind]
    have hstack1 := stackDim2_replicate T N A (dsH * sOp * sBev)
      (dsW * sOp * sBev) hT
    have hstack2 := stackDim2_replicate T N A dsH dsW hT
    simp [hstack1, hstack2, ebind, show 0 < T by omega]



/-- **C8.** `OccFormer.forward` fails immediately — its first step, the
assert block of occformer.py lines 234-237, runs before any
computation — whenever the agent counts of `track_queries` and
`motion_queries` differ, or the motion embedding width differs from
`embed_dim`, or the mode count differs from `num_modes`, or the BEV
channel width differs from `embed_dim`; the `AssertionError` propagates
to the caller unmodified and no output (truncated, broadcast or
otherwise) is produced. -/
theorem occformer_precondition_asserts (cfg : OccCfg) (training : Bool)
    (bev track motion : Shape) (padMask : Option Shape)
    (h : ¬(track.getD 1 0 = motion.getD 1 0
      ∧ (track.getD 2 0 = motion.getD 3 0
          ∧ motion.getD 3 0 = cfg.embed_dim)
      ∧ motion.getD 2 0 = cfg.num_modes
      ∧ bev.getD 2 0 = cfg.embed_dim)) :
    occformerForwardShape cfg training bev track motion padMask
      = Except.error PyError.assertError := by
  have hass : occAsserts cfg.embed_dim cfg.num_modes bev track motion
      = Except.error PyError.assertError := by
    unfold occAsserts
    rw [if_neg h]
  unfold occformerForwardShape
  rw [hass]
  rfl

/-- Witness for C8 at a concrete input: track queries for 5 agents
versus motion queries for 4 agents. -/
theorem occformer_precondition_asserts_witness :
    (¬((5 : Nat) = 4
      ∧ ((8 : Nat) = 8 ∧ (8 : Nat) = 8)
      ∧ (6 : Nat) = 6
      ∧ (8 : Nat) = 8))
    ∧ occformerForwardShape (OccCfg.mk 8 6 5 200 200 4 2) true
        [2, 40000, 8] [2, 5, 8] [2, 4, 6, 8] none
      = Except.error PyError.assertError :=
  ⟨by decide,
    occformer_precondition_asserts (OccCfg.mk 8 6 5 200 200 4 2) true
      [2, 40000, 8] [2, 5, 8] [2, 4, 6, 8] none (by decide)⟩

/-- Witness for C7 at a concrete input: batch 1, 3 agents, 2 modes,
embed width 2, BEV grid 4×4, scales 2 and 2, horizon 2, training mode,
with a pad mask. -/
theorem occformer_occupancy_shape_witness :
    ((0 : Nat) < 2 ∧ (1 : Nat) ≤ 2)
    ∧ occformerForwardShape (OccCfg.mk 2 2 2 4 4 2 2) true
        [1, 16, 2] [1, 3, 2] [1, 3, 2, 2] (some [1, 3])
      = Except.ok ([1, 3, 2, 4, 4], some [1, 3, 2, 1, 1]) :=
  ⟨⟨by decide, by decide⟩,
    (by
      simpa using occformer_occupancy_shape 2 2 2 1 1 2 2 1 3 true
        (some [1, 3]) (by decide) (by decide) (by decide) (by decide)
        (by decide) (by decide) (by decide) (by decide) (Or.inr rfl))⟩

end TorchUniAD
